import Mathlib

/-!
Verification of the kesai real-time video synchronization backend.

The server keeps an in-memory `roomStore` mapping room ids to room state,
tracks which socket belongs to which rooms, and handles the socket events
`createRoom`, `joinRoom`, `updateRoom`, `videoEvent` and `disconnect`.
This file embeds that server shallowly: the store is an association list
with JavaScript `Map` get/set semantics, socket-room membership is an
explicit list of (connection, room) pairs, and each handler is a pure
function from server state and payload to the new server state together
with the list of messages emitted on the wire.

Playback timestamps are embedded as `Int` (a JavaScript number carrying a
millisecond count, which nothing in the server forces to be non-negative)
and both the event `type` and the room's playback `state` are embedded as
`String`, since the server compares and stores them as runtime strings.
-/

namespace Kesai

/-- `RoomState` from the source: the stored per-room record. -/
structure RoomState where
  roomId : String
  videoUrl : String
  lastKnownTime : Int
  state : String
deriving DecidableEq

/-- `VideoEventPayload` from the source: a play/pause/seek message. The
`type` field is a runtime string, so unrecognized tags are representable. -/
structure VideoEventPayload where
  type : String
  currentTime : Int
deriving DecidableEq

/-- `RoomConfigPayload` from the source (also the shape of
`CreateRoomPayload` and `UpdateRoomPayload`). -/
structure RoomConfigPayload where
  roomId : String
  videoUrl : String
deriving DecidableEq

/-- `JoinRoomPayload` from the source. -/
structure JoinRoomPayload where
  roomId : String
deriving DecidableEq

/-- A socket id. -/
abbrev ConnId := String

/-- The room registry: `roomStore` is a JavaScript `Map` from room id to
`RoomState`, embedded as an association list in insertion order. -/
abbrev Store := List (String × RoomState)

/-- `roomStore.get(roomId)`: first entry with the given key, if any. -/
def storeGet (store : Store) (roomId : String) : Option RoomState :=
  match store with
  | [] => none
  | (k, v) :: rest => if k = roomId then some v else storeGet rest roomId

/-- `roomStore.set(roomId, rs)`: replace the entry in place if the key is
present, otherwise append a fresh entry. -/
def storeSet (store : Store) (roomId : String) (rs : RoomState) : Store :=
  match store with
  | [] => [(roomId, rs)]
  | (k, v) :: rest =>
      if k = roomId then (roomId, rs) :: rest else (k, v) :: storeSet rest roomId rs

/-- The branch cascade inside `updateRoomState` (the source's state
reconciler): `play` sets the state to playing and takes the event's time,
`pause` sets it to paused and takes the event's time, `seek` takes the
event's time and leaves the state alone, and any other tag falls through
every branch leaving the room untouched. -/
def reconcile (room : RoomState) (event : VideoEventPayload) : RoomState :=
  if event.type = "play" then
    { room with state := "playing", lastKnownTime := event.currentTime }
  else if event.type = "pause" then
    { room with state := "paused", lastKnownTime := event.currentTime }
  else if event.type = "seek" then
    { room with lastKnownTime := event.currentTime }
  else
    room

/-- `updateRoomState(roomId, event)` from the source: look the room up,
and when it exists fold the event into it and store it back; when the
room is absent the store is untouched. -/
def updateRoomState (store : Store) (roomId : String) (event : VideoEventPayload) : Store :=
  match storeGet store roomId with
  | some room => storeSet store roomId (reconcile room event)
  | none => store

/-- The channels the server emits on. -/
inductive Channel where
  | syncVideo
  | videoEvent
deriving DecidableEq

/-- A payload sent to a client: either a full room snapshot
(`syncVideo`) or a relayed raw video event. -/
inductive Payload where
  | snapshot (rs : RoomState)
  | event (ev : VideoEventPayload)
deriving DecidableEq

/-- One message emitted by the server: destination socket, channel, payload. -/
structure Msg where
  dest : ConnId
  channel : Channel
  payload : Payload
deriving DecidableEq

/-- The whole server state: the room registry, the connected sockets in
connection order, and the socket-room membership pairs (socket.io keeps a
socket's rooms as a set; on connection a socket is placed in a room named
after its own id). -/
structure ServerState where
  roomStore : Store
  conns : List ConnId
  members : List (ConnId × String)
deriving DecidableEq

/-- `socket.join(roomId)`: membership is a set, so joining a room the
socket is already in is a no-op; otherwise the pair is recorded. -/
def addMember (members : List (ConnId × String)) (c : ConnId) (roomId : String) :
    List (ConnId × String) :=
  if members.contains (c, roomId) then members else members ++ [(c, roomId)]

/-- `socket.rooms` for a connection: the rooms this socket belongs to, in
recorded order (this includes the room named after the socket's own id). -/
def socketRooms (s : ServerState) (c : ConnId) : List String :=
  (s.members.filter (fun p => p.1 = c)).map (fun p => p.2)

/-- The members of a room, in connection order: the sockets currently in
the room's broadcast group. -/
def roomMembers (conns : List ConnId) (members : List (ConnId × String))
    (roomId : String) : List ConnId :=
  conns.filter (fun d => members.contains (d, roomId))

/-- A new socket connection: recorded in `conns`, and socket.io puts the
socket in a room named after its own id. -/
def handleConnect (s : ServerState) (c : ConnId) : ServerState :=
  { s with conns := s.conns ++ [c], members := addMember s.members c c }

/-- The `createRoom` handler: build a fresh `RoomState` at time 0 and
paused, store it (overwriting any previous room with this id), join the
creator to the room, and emit the initial snapshot to the creator only. -/
def handleCreateRoom (s : ServerState) (sender : ConnId) (data : RoomConfigPayload) :
    ServerState × List Msg :=
  let roomState : RoomState :=
    { roomId := data.roomId, videoUrl := data.videoUrl, lastKnownTime := 0, state := "paused" }
  ({ s with
      roomStore := storeSet s.roomStore data.roomId roomState,
      members := addMember s.members sender data.roomId },
    [{ dest := sender, channel := Channel.syncVideo, payload := Payload.snapshot roomState }])

/-- The `joinRoom` handler: join the socket to the room, then send it the
stored snapshot when the room exists, and otherwise a synthesized default
snapshot with empty `videoUrl`, time 0 and paused state. The registry is
never written. -/
def handleJoinRoom (s : ServerState) (sender : ConnId) (data : JoinRoomPayload) :
    ServerState × List Msg :=
  let s' := { s with members := addMember s.members sender data.roomId }
  match storeGet s'.roomStore data.roomId with
  | some roomState =>
      (s', [{ dest := sender, channel := Channel.syncVideo, payload := Payload.snapshot roomState }])
  | none =>
      (s', [{ dest := sender, channel := Channel.syncVideo,
              payload := Payload.snapshot
                { roomId := data.roomId, videoUrl := "", lastKnownTime := 0, state := "paused" } }])

/-- The `updateRoom` handler: when the room exists, overwrite its
`videoUrl` and broadcast the full updated snapshot to every member of the
room (`io.to(roomId)` does not exclude the sender); when the room is
absent, do nothing and emit nothing. -/
def handleUpdateRoom (s : ServerState) (_sender : ConnId) (data : RoomConfigPayload) :
    ServerState × List Msg :=
  match storeGet s.roomStore data.roomId with
  | some roomState =>
      let newState := { roomState with videoUrl := data.videoUrl }
      ({ s with roomStore := storeSet s.roomStore data.roomId newState },
        (roomMembers s.conns s.members data.roomId).map
          (fun d => { dest := d, channel := Channel.syncVideo, payload := Payload.snapshot newState }))
  | none => (s, [])

/-- The `forEach` loop of the `videoEvent` handler: for each room the
sender belongs to, fold the event into the registry via `updateRoomState`
and then emit the raw event to every other socket in that room
(`socket.to(roomId)` excludes the sender). -/
def videoEventLoop (sender : ConnId) (data : VideoEventPayload) (conns : List ConnId)
    (members : List (ConnId × String)) (rooms : List String)
    (store : Store) (msgs : List Msg) : Store × List Msg :=
  match rooms with
  | [] => (store, msgs)
  | roomId :: rest =>
      let store' := updateRoomState store roomId data
      let newMsgs :=
        ((roomMembers conns members roomId).filter (fun d => d ≠ sender)).map
          (fun d => { dest := d, channel := Channel.videoEvent, payload := Payload.event data })
      videoEventLoop sender data conns members rest store' (msgs ++ newMsgs)

/-- The rooms a `videoEvent` from this socket fans out into:
`Array.from(socket.rooms).filter((room) => room !== socket.id)`. -/
def senderRooms (s : ServerState) (sender : ConnId) : List String :=
  (socketRooms s sender).filter (fun r => r ≠ sender)

/-- The `videoEvent` handler: apply the event to every room the sender
currently belongs to (its own id-room excluded), reconciling each room's
state and relaying the raw event to all other members of that room. -/
def handleVideoEvent (s : ServerState) (sender : ConnId) (data : VideoEventPayload) :
    ServerState × List Msg :=
  let result := videoEventLoop sender data s.conns s.members (senderRooms s sender) s.roomStore []
  ({ s with roomStore := result.1 }, result.2)

/-- The `disconnect` handler: socket.io removes the socket from every
room; the registry is untouched. No message is emitted. -/
def handleDisconnect (s : ServerState) (c : ConnId) : ServerState × List Msg :=
  ({ s with
      conns := s.conns.filter (fun d => d ≠ c),
      members := s.members.filter (fun p => p.1 ≠ c) }, [])

/-- Folding a sequence of video events into one room of the registry,
one `updateRoomState` call per event. -/
def applyEvents (store : Store) (roomId : String) (evs : List VideoEventPayload) : Store :=
  evs.foldl (fun st e => updateRoomState st roomId e) store

/-- One inbound occurrence the server reacts to: a socket connecting,
one of the four socket events, or a disconnect. -/
inductive Action where
  | connect (c : ConnId)
  | createRoom (c : ConnId) (data : RoomConfigPayload)
  | joinRoom (c : ConnId) (data : JoinRoomPayload)
  | updateRoom (c : ConnId) (data : RoomConfigPayload)
  | videoEvent (c : ConnId) (data : VideoEventPayload)
  | disconnect (c : ConnId)
deriving DecidableEq

/-- The server's state transition for one inbound action (messages
emitted on the wire are dropped; only the retained state matters here). -/
def step (s : ServerState) (a : Action) : ServerState :=
  match a with
  | Action.connect c => handleConnect s c
  | Action.createRoom c d => (handleCreateRoom s c d).1
  | Action.joinRoom c d => (handleJoinRoom s c d).1
  | Action.updateRoom c d => (handleUpdateRoom s c d).1
  | Action.videoEvent c d => (handleVideoEvent s c d).1
  | Action.disconnect c => (handleDisconnect s c).1

/-- The server state at process start: empty registry, no connections. -/
def initialState : ServerState :=
  { roomStore := [], conns := [], members := [] }

/-- The server state after a whole sequence of inbound actions. -/
def run (acts : List Action) : ServerState :=
  acts.foldl step initialState

/-- A `videoEvent` action carries a non-negative `currentTime`; any
other action satisfies this vacuously. -/
def eventNonneg (a : Action) : Prop :=
  match a with
  | Action.videoEvent _ d => 0 ≤ d.currentTime
  | _ => True

instance : DecidablePred eventNonneg := fun a => by
  unfold eventNonneg
  cases a <;> infer_instance

/-- The assumption of claim C7: every `videoEvent` in a trace carries a
non-negative `currentTime`. -/
def eventsNonneg (acts : List Action) : Prop :=
  ∀ a ∈ acts, eventNonneg a

instance (acts : List Action) : Decidable (eventsNonneg acts) :=
  List.decidableBAll eventNonneg acts

/-- The per-room part of the registry invariant of claim C7. -/
def roomInv (rs : RoomState) : Prop :=
  0 ≤ rs.lastKnownTime ∧ (rs.state = "playing" ∨ rs.state = "paused")

/-- The registry invariant of claim C7: every stored room has a
non-negative time and a playback state that is playing or paused. -/
def storeInv (store : Store) : Prop :=
  ∀ p ∈ store, roomInv p.2

/- ### Registry (association list) lemmas -/

theorem storeGet_storeSet_self (store : Store) (k : String) (v : RoomState) :
    storeGet (storeSet store k v) k = some v := by
  induction store with
  | nil => simp [storeSet, storeGet]
  | cons hd tl ih =>
      obtain ⟨k', v'⟩ := hd
      by_cases h : k' = k
      · simp [storeSet, storeGet, h]
      · simp [storeSet, storeGet, h, ih]

theorem storeGet_storeSet_ne (store : Store) (k k' : String) (v : RoomState)
    (h : k' ≠ k) : storeGet (storeSet store k v) k' = storeGet store k' := by
  induction store with
  | nil =>
      have hne : ¬ k = k' := fun hh => h hh.symm
      simp [storeSet, storeGet, hne]
  | cons hd tl ih =>
      obtain ⟨k₀, v₀⟩ := hd
      by_cases h₀ : k₀ = k
      · subst h₀
        have hne : ¬ k₀ = k' := fun hh => h hh.symm
        simp [storeSet, storeGet, hne]
      · simp only [storeSet, if_neg h₀, storeGet]
        by_cases h₁ : k₀ = k'
        · simp [h₁]
        · simp [h₁, ih]

theorem storeSet_self_of_get (store : Store) (k : String) (v : RoomState)
    (h : storeGet store k = some v) : storeSet store k v = store := by
  induction store with
  | nil => simp [storeGet] at h
  | cons hd tl ih =>
      obtain ⟨k', v'⟩ := hd
      by_cases hk : k' = k
      · subst hk
        simp [storeGet] at h
        simp [storeSet, h]
      · simp [storeGet, hk] at h
        simp [storeSet, hk, ih h]

theorem storeGet_mem (store : Store) (k : String) (v : RoomState)
    (h : storeGet store k = some v) : (k, v) ∈ store := by
  induction store with
  | nil => simp [storeGet] at h
  | cons hd tl ih =>
      obtain ⟨k', v'⟩ := hd
      by_cases hk : k' = k
      · subst hk
        simp [storeGet] at h
        simp [h]
      · simp [storeGet, hk] at h
        simp [ih h]

theorem mem_storeSet (store : Store) (k : String) (v : RoomState) (p : String × RoomState)
    (h : p ∈ storeSet store k v) : p = (k, v) ∨ p ∈ store := by
  induction store with
  | nil => simpa [storeSet] using h
  | cons hd tl ih =>
      obtain ⟨k', v'⟩ := hd
      by_cases hk : k' = k
      · subst hk
        simp only [storeSet, if_pos rfl] at h
        rcases List.mem_cons.mp h with h | h
        · exact Or.inl h
        · exact Or.inr (List.mem_cons_of_mem _ h)
      · simp only [storeSet, if_neg hk] at h
        rcases List.mem_cons.mp h with h | h
        · exact Or.inr (by simp [h])
        · rcases ih h with h | h
          · exact Or.inl h
          · exact Or.inr (List.mem_cons_of_mem _ h)

/- ### `updateRoomState` lemmas -/

theorem updateRoomState_of_get_some (store : Store) (roomId : String)
    (e : VideoEventPayload) (room : RoomState) (h : storeGet store roomId = some room) :
    updateRoomState store roomId e = storeSet store roomId (reconcile room e) := by
  simp [updateRoomState, h]

theorem updateRoomState_of_get_none (store : Store) (roomId : String)
    (e : VideoEventPayload) (h : storeGet store roomId = none) :
    updateRoomState store roomId e = store := by
  simp [updateRoomState, h]

theorem storeGet_updateRoomState_ne (store : Store) (roomId k : String)
    (e : VideoEventPayload) (h : k ≠ roomId) :
    storeGet (updateRoomState store roomId e) k = storeGet store k := by
  unfold updateRoomState
  cases hg : storeGet store roomId with
  | none => rfl
  | some room => exact storeGet_storeSet_ne store roomId k (reconcile room e) h

theorem storeGet_applyEvents (store : Store) (roomId : String)
    (evs : List VideoEventPayload) (room : RoomState)
    (h : storeGet store roomId = some room) :
    storeGet (applyEvents store roomId evs) roomId = some (evs.foldl reconcile room) := by
  induction evs generalizing store room with
  | nil => simpa [applyEvents]
  | cons e rest ih =>
      have hstep : storeGet (updateRoomState store roomId e) roomId
          = some (reconcile room e) := by
        rw [updateRoomState_of_get_some store roomId e room h]
        exact storeGet_storeSet_self store roomId (reconcile room e)
      simpa [applyEvents, List.foldl_cons] using
        ih (updateRoomState store roomId e) (reconcile room e) hstep

theorem storeGet_foldlUpdate_none (rooms : List String) (store : Store) (r : String)
    (ev : VideoEventPayload) (h : storeGet store r = none) :
    storeGet (rooms.foldl (fun st rid => updateRoomState st rid ev) store) r = none := by
  induction rooms generalizing store with
  | nil => simpa
  | cons r0 rest ih =>
      simp only [List.foldl_cons]
      apply ih
      by_cases hr : r = r0
      · subst hr
        rw [updateRoomState_of_get_none store r ev h]
        exact h
      · rw [storeGet_updateRoomState_ne store r0 r ev hr]
        exact h

/- ### `videoEvent` loop lemmas -/

theorem videoEventLoop_msgs_mono (sender : ConnId) (data : VideoEventPayload)
    (conns : List ConnId) (members : List (ConnId × String)) (rooms : List String)
    (store : Store) (msgs : List Msg) (m : Msg) (h : m ∈ msgs) :
    m ∈ (videoEventLoop sender data conns members rooms store msgs).2 := by
  induction rooms generalizing store msgs with
  | nil => simpa [videoEventLoop]
  | cons r0 rest ih =>
      simp only [videoEventLoop]
      exact ih _ _ (List.mem_append_left _ h)

theorem videoEventLoop_delivers (sender : ConnId) (data : VideoEventPayload)
    (conns : List ConnId) (members : List (ConnId × String)) (rooms : List String)
    (store : Store) (msgs : List Msg) (r : String) (b : ConnId) (hr : r ∈ rooms)
    (hb : b ∈ conns) (hm : members.contains (b, r) = true) (hne : b ≠ sender) :
    { dest := b, channel := Channel.videoEvent, payload := Payload.event data } ∈
      (videoEventLoop sender data conns members rooms store msgs).2 := by
  induction rooms generalizing store msgs with
  | nil => cases hr
  | cons r0 rest ih =>
      rcases List.mem_cons.mp hr with h | h
      · subst h
        simp only [videoEventLoop]
        apply videoEventLoop_msgs_mono
        apply List.mem_append_right
        refine List.mem_map.mpr ⟨b, ?_, rfl⟩
        refine List.mem_filter.mpr ⟨?_, by simpa using hne⟩
        exact List.mem_filter.mpr ⟨hb, by simpa using hm⟩
      · simp only [videoEventLoop]
        exact ih _ _ h

theorem videoEventLoop_msgs_shape (sender : ConnId) (data : VideoEventPayload)
    (conns : List ConnId) (members : List (ConnId × String)) (rooms : List String)
    (store : Store) (msgs : List Msg) (m : Msg)
    (h : m ∈ (videoEventLoop sender data conns members rooms store msgs).2) :
    m ∈ msgs ∨
      (m.dest ≠ sender ∧ m.channel = Channel.videoEvent ∧ m.payload = Payload.event data ∧
        m.dest ∈ conns ∧ ∃ r ∈ rooms, members.contains (m.dest, r) = true) := by
  induction rooms generalizing store msgs with
  | nil =>
      left
      simpa [videoEventLoop] using h
  | cons r0 rest ih =>
      simp only [videoEventLoop] at h
      rcases ih _ _ h with h' | h'
      · rcases List.mem_append.mp h' with h'' | h''
        · exact Or.inl h''
        · right
          obtain ⟨d, hd, rfl⟩ := List.mem_map.mp h''
          have hd1 := List.mem_filter.mp hd
          have hd2 := List.mem_filter.mp hd1.1
          refine ⟨by simpa using hd1.2, rfl, rfl, hd2.1, ⟨r0, by simp, by simpa using hd2.2⟩⟩
      · right
        obtain ⟨hne, hch, hp, hc, r, hr, hmem⟩ := h'
        exact ⟨hne, hch, hp, hc, ⟨r, List.mem_cons_of_mem _ hr, hmem⟩⟩

theorem videoEventLoop_store (sender : ConnId) (data : VideoEventPayload)
    (conns : List ConnId) (members : List (ConnId × String)) (rooms : List String)
    (store : Store) (msgs : List Msg) :
    (videoEventLoop sender data conns members rooms store msgs).1 =
      rooms.foldl (fun st r => updateRoomState st r data) store := by
  induction rooms generalizing store msgs with
  | nil => rfl
  | cons r0 rest ih =>
      simp only [videoEventLoop, List.foldl_cons]
      exact ih _ _

theorem mem_senderRooms (s : ServerState) (a : ConnId) (r : String)
    (hmem : (a, r) ∈ s.members) (hra : r ≠ a) : r ∈ senderRooms s a := by
  unfold senderRooms socketRooms
  refine List.mem_filter.mpr ⟨?_, by simpa using hra⟩
  exact List.mem_map.mpr ⟨(a, r), List.mem_filter.mpr ⟨hmem, by simp⟩, rfl⟩

/- ### Handler frame lemmas -/

theorem handleJoinRoom_roomStore (s : ServerState) (c : ConnId) (d : JoinRoomPayload) :
    (handleJoinRoom s c d).1.roomStore = s.roomStore := by
  cases hg : storeGet s.roomStore d.roomId with
  | none => simp [handleJoinRoom, hg]
  | some rs => simp [handleJoinRoom, hg]

/- ### Invariant preservation -/

theorem roomInv_reconcile (room : RoomState) (e : VideoEventPayload)
    (hroom : roomInv room) (he : 0 ≤ e.currentTime) : roomInv (reconcile room e) := by
  unfold reconcile roomInv
  by_cases h1 : e.type = "play"
  · simp [h1, he]
  · by_cases h2 : e.type = "pause"
    · simp [h1, h2, he]
    · by_cases h3 : e.type = "seek"
      · simp [h1, h2, h3, he, hroom.2]
      · simp [h1, h2, h3, hroom.1, hroom.2]

theorem storeInv_storeSet (store : Store) (k : String) (v : RoomState)
    (hs : storeInv store) (hv : roomInv v) : storeInv (storeSet store k v) := by
  intro p hp
  rcases mem_storeSet store k v p hp with h | h
  · subst h
    exact hv
  · exact hs p h

theorem storeInv_updateRoomState (store : Store) (roomId : String) (e : VideoEventPayload)
    (hs : storeInv store) (he : 0 ≤ e.currentTime) :
    storeInv (updateRoomState store roomId e) := by
  unfold updateRoomState
  cases hg : storeGet store roomId with
  | none => exact hs
  | some room =>
      exact storeInv_storeSet store roomId (reconcile room e) hs
        (roomInv_reconcile room e (hs _ (storeGet_mem store roomId room hg)) he)

theorem storeInv_foldlUpdate (rooms : List String) (store : Store) (e : VideoEventPayload)
    (hs : storeInv store) (he : 0 ≤ e.currentTime) :
    storeInv (rooms.foldl (fun st r => updateRoomState st r e) store) := by
  induction rooms generalizing store with
  | nil => simpa
  | cons r rest ih =>
      simp only [List.foldl_cons]
      exact ih _ (storeInv_updateRoomState store r e hs he)

theorem storeInv_step (s : ServerState) (a : Action) (hs : storeInv s.roomStore)
    (ha : eventNonneg a) : storeInv (step s a).roomStore := by
  cases a with
  | connect c => exact hs
  | createRoom c d =>
      simp only [step, handleCreateRoom]
      exact storeInv_storeSet _ _ _ hs ⟨le_refl 0, Or.inr rfl⟩
  | joinRoom c d =>
      simpa only [step, handleJoinRoom_roomStore] using hs
  | updateRoom c d =>
      simp only [step, handleUpdateRoom]
      cases hg : storeGet s.roomStore d.roomId with
      | none => exact hs
      | some room =>
          have hr : roomInv room := hs _ (storeGet_mem s.roomStore d.roomId room hg)
          exact storeInv_storeSet _ _ _ hs ⟨hr.1, hr.2⟩
  | videoEvent c d =>
      simp only [step, handleVideoEvent, videoEventLoop_store]
      exact storeInv_foldlUpdate _ _ _ hs ha
  | disconnect c => exact hs

theorem storeInv_runFrom (acts : List Action) (s : ServerState)
    (hs : storeInv s.roomStore) (h : eventsNonneg acts) :
    storeInv (acts.foldl step s).roomStore := by
  induction acts generalizing s with
  | nil => simpa
  | cons a rest ih =>
      simp only [List.foldl_cons]
      exact ih _ (storeInv_step s a hs (h a (List.mem_cons_self a rest)))
        (fun a' ha' => h a' (List.mem_cons_of_mem a ha'))

/- ### The claims -/

/-- C1: for every sequence of video events applied to an existing room,
after each event the room's `lastKnownTime` equals that event's
`currentTime`, and the room's state is `playing` after a `play` event,
`paused` after a `pause` event, and unchanged from its previous value
after a `seek` event. -/
theorem c1_play_pause_seek_sequence (store : Store) (roomId : String) (room0 : RoomState)
    (h0 : storeGet store roomId = some room0)
    (pre : List VideoEventPayload) (e : VideoEventPayload)
    (he : e.type = "play" ∨ e.type = "pause" ∨ e.type = "seek") :
    ∃ rPre rPost : RoomState,
      storeGet (applyEvents store roomId pre) roomId = some rPre ∧
      storeGet (applyEvents store roomId (pre ++ [e])) roomId = some rPost ∧
      rPost.lastKnownTime = e.currentTime ∧
      rPost.state =
        (if e.type = "play" then "playing"
          else if e.type = "pause" then "paused" else rPre.state) := by
  refine ⟨pre.foldl reconcile room0, (pre ++ [e]).foldl reconcile room0, ?_, ?_, ?_, ?_⟩
  · exact storeGet_applyEvents store roomId pre room0 h0
  · exact storeGet_applyEvents store roomId (pre ++ [e]) room0 h0
  · rw [List.foldl_append]
    simp only [List.foldl_cons, List.foldl_nil]
    rcases he with h | h | h <;> simp [reconcile, h]
  · rw [List.foldl_append]
    simp only [List.foldl_cons, List.foldl_nil]
    rcases he with h | h | h <;> simp [reconcile, h]

/-- Witness for C1: a `pause` at 3 then a `seek` at 7 against a room that
was playing at time 5 — after the `seek` the time is 7 and the state is
what the `pause` left it at. -/
theorem c1_witness :
    ∃ rPre rPost : RoomState,
      storeGet (applyEvents
        [("R1", { roomId := "R1", videoUrl := "v", lastKnownTime := 5, state := "playing" })]
        "R1" [{ type := "pause", currentTime := 3 }]) "R1" = some rPre ∧
      storeGet (applyEvents
        [("R1", { roomId := "R1", videoUrl := "v", lastKnownTime := 5, state := "playing" })]
        "R1" ([{ type := "pause", currentTime := 3 }] ++ [{ type := "seek", currentTime := 7 }]))
        "R1" = some rPost ∧
      rPost.lastKnownTime = (7 : Int) ∧
      rPost.state =
        (if ("seek" : String) = "play" then "playing"
          else if ("seek" : String) = "pause" then "paused" else rPre.state) :=
  c1_play_pause_seek_sequence
    [("R1", { roomId := "R1", videoUrl := "v", lastKnownTime := 5, state := "playing" })]
    "R1" { roomId := "R1", videoUrl := "v", lastKnownTime := 5, state := "playing" }
    (by decide) [{ type := "pause", currentTime := 3 }] { type := "seek", currentTime := 7 }
    (by decide)

/-- C3: joining a room id that is not in the registry replies to the
requester with the synthetic default snapshot (same room id, empty url,
time 0, paused) rather than failing. -/
theorem c3_join_unknown_room_default (s : ServerState) (c : ConnId) (roomId : String)
    (h : storeGet s.roomStore roomId = none) :
    (handleJoinRoom s c { roomId := roomId }).2 =
      [{ dest := c, channel := Channel.syncVideo,
         payload := Payload.snapshot
           { roomId := roomId, videoUrl := "", lastKnownTime := 0, state := "paused" } }] := by
  simp [handleJoinRoom, h]

/-- Witness for C3: joining the unknown room `"R"` on a fresh server. -/
theorem c3_witness :
    (handleJoinRoom initialState "a" { roomId := "R" }).2 =
      [{ dest := "a", channel := Channel.syncVideo,
         payload := Payload.snapshot
           { roomId := "R", videoUrl := "", lastKnownTime := 0, state := "paused" } }] :=
  c3_join_unknown_room_default initialState "a" "R" (by decide)

/-- C4: creating the same room id twice leaves the registry holding for
that id exactly what the second `createRoom` would have produced on an
empty registry: the second call's url, time 0, paused. -/
theorem c4_createRoom_overwrite (s : ServerState) (c1 c2 : ConnId) (roomId v1 v2 : String) :
    storeGet ((handleCreateRoom (handleCreateRoom s c1
          { roomId := roomId, videoUrl := v1 }).1 c2
          { roomId := roomId, videoUrl := v2 }).1).roomStore roomId =
      some { roomId := roomId, videoUrl := v2, lastKnownTime := 0, state := "paused" } ∧
    storeGet ((handleCreateRoom initialState c2
          { roomId := roomId, videoUrl := v2 }).1).roomStore roomId =
      some { roomId := roomId, videoUrl := v2, lastKnownTime := 0, state := "paused" } := by
  constructor
  · simp only [handleCreateRoom]
    exact storeGet_storeSet_self _ roomId _
  · simp only [handleCreateRoom]
    exact storeGet_storeSet_self _ roomId _

/-- C6: `updateRoom` on a room id absent from the registry is a silent
no-op — the server state is unchanged and no message is emitted. -/
theorem c6_updateRoom_absent_noop (s : ServerState) (c : ConnId) (roomId v : String)
    (h : storeGet s.roomStore roomId = none) :
    handleUpdateRoom s c { roomId := roomId, videoUrl := v } = (s, []) := by
  simp [handleUpdateRoom, h]

/-- Witness for C6: updating the unknown room `"R"` on a fresh server. -/
theorem c6_witness :
    handleUpdateRoom initialState "a" { roomId := "R", videoUrl := "v2" } =
      (initialState, []) :=
  c6_updateRoom_absent_noop initialState "a" "R" "v2" (by decide)

/-- C8: a `joinRoom` request never writes the registry — whether the room
exists or not, the stored rooms are exactly as before. -/
theorem c8_joinRoom_registry_unchanged (s : ServerState) (c : ConnId) (d : JoinRoomPayload) :
    (handleJoinRoom s c d).1.roomStore = s.roomStore :=
  handleJoinRoom_roomStore s c d

/-- C10: a video event whose `type` is none of `play`, `pause`, `seek`
falls through every branch of `updateRoomState`, leaving the registry
untouched. -/
theorem c10_unknown_event_type_noop (store : Store) (roomId : String) (e : VideoEventPayload)
    (hp : e.type ≠ "play") (ha : e.type ≠ "pause") (hs : e.type ≠ "seek") :
    updateRoomState store roomId e = store := by
  cases hg : storeGet store roomId with
  | none => exact updateRoomState_of_get_none store roomId e hg
  | some room =>
      have hrec : reconcile room e = room := by simp [reconcile, hp, ha, hs]
      rw [updateRoomState_of_get_some store roomId e room hg, hrec]
      exact storeSet_self_of_get store roomId room hg

/-- C2: a `videoEvent` from connection `a` is delivered, as the raw event
on the `videoEvent` channel, to every other member of every room `a`
belongs to; every emitted message goes to a connection other than `a`
that shares one of `a`'s rooms; and the resulting registry is each of
`a`'s rooms reconciled with the event. -/
theorem c2_videoEvent_fanout (s : ServerState) (a : ConnId) (ev : VideoEventPayload) :
    (∀ r, r ∈ senderRooms s a → ∀ b, b ∈ s.conns → b ≠ a →
        s.members.contains (b, r) = true →
        { dest := b, channel := Channel.videoEvent, payload := Payload.event ev } ∈
          (handleVideoEvent s a ev).2) ∧
    (∀ m, m ∈ (handleVideoEvent s a ev).2 →
        m.dest ≠ a ∧ m.channel = Channel.videoEvent ∧ m.payload = Payload.event ev ∧
        ∃ r ∈ senderRooms s a, s.members.contains (m.dest, r) = true) ∧
    (handleVideoEvent s a ev).1.roomStore =
      (senderRooms s a).foldl (fun st r => updateRoomState st r ev) s.roomStore := by
  refine ⟨?_, ?_, ?_⟩
  · intro r hr b hb hne hm
    exact videoEventLoop_delivers a ev s.conns s.members (senderRooms s a) s.roomStore []
      r b hr hb hm hne
  · intro m hm
    rcases videoEventLoop_msgs_shape a ev s.conns s.members (senderRooms s a) s.roomStore []
        m hm with h | h
    · exact absurd h (List.not_mem_nil m)
    · exact ⟨h.1, h.2.1, h.2.2.1, h.2.2.2.2⟩
  · exact videoEventLoop_store a ev s.conns s.members (senderRooms s a) s.roomStore []

/-- Witness for C2: with `a` and `b` in room `R1` and `c` alone in `R2`,
a play event from `a` reaches `b`. -/
theorem c2_witness :
    { dest := "b", channel := Channel.videoEvent,
      payload := Payload.event { type := "play", currentTime := 42 } } ∈
      (handleVideoEvent (run
        [Action.connect "a", Action.createRoom "a" { roomId := "R1", videoUrl := "v1" },
          Action.connect "b", Action.joinRoom "b" { roomId := "R1" },
          Action.connect "c", Action.createRoom "c" { roomId := "R2", videoUrl := "v2" }])
        "a" { type := "play", currentTime := 42 }).2 :=
  (c2_videoEvent_fanout (run
      [Action.connect "a", Action.createRoom "a" { roomId := "R1", videoUrl := "v1" },
        Action.connect "b", Action.joinRoom "b" { roomId := "R1" },
        Action.connect "c", Action.createRoom "c" { roomId := "R2", videoUrl := "v2" }])
      "a" { type := "play", currentTime := 42 }).1
    "R1" (by decide) "b" (by decide) (by decide) (by decide)

/-- C5: `updateRoom` on an existing room overwrites only that room's
`videoUrl` (time and playback state kept, every other room untouched)
and sends the full updated snapshot to every member of the room, the
sender not excluded. -/
theorem c5_updateRoom_existing (s : ServerState) (c : ConnId) (roomId v : String)
    (room : RoomState) (h : storeGet s.roomStore roomId = some room) :
    storeGet ((handleUpdateRoom s c { roomId := roomId, videoUrl := v }).1).roomStore roomId =
      some { room with videoUrl := v } ∧
    (∀ k, k ≠ roomId →
      storeGet ((handleUpdateRoom s c { roomId := roomId, videoUrl := v }).1).roomStore k =
        storeGet s.roomStore k) ∧
    (handleUpdateRoom s c { roomId := roomId, videoUrl := v }).2 =
      (roomMembers s.conns s.members roomId).map
        (fun d => { dest := d, channel := Channel.syncVideo,
                    payload := Payload.snapshot { room with videoUrl := v } }) ∧
    (∀ b, b ∈ roomMembers s.conns s.members roomId →
      { dest := b, channel := Channel.syncVideo,
        payload := Payload.snapshot { room with videoUrl := v } } ∈
        (handleUpdateRoom s c { roomId := roomId, videoUrl := v }).2) := by
  have h1 : (handleUpdateRoom s c { roomId := roomId, videoUrl := v }).1.roomStore =
      storeSet s.roomStore roomId { room with videoUrl := v } := by
    simp [handleUpdateRoom, h]
  have h2 : (handleUpdateRoom s c { roomId := roomId, videoUrl := v }).2 =
      (roomMembers s.conns s.members roomId).map
        (fun d => { dest := d, channel := Channel.syncVideo,
                    payload := Payload.snapshot { room with videoUrl := v } }) := by
    simp [handleUpdateRoom, h]
  refine ⟨?_, ?_, h2, ?_⟩
  · rw [h1]
    exact storeGet_storeSet_self _ _ _
  · intro k hk
    rw [h1]
    exact storeGet_storeSet_ne _ _ _ _ hk
  · intro b hb
    rw [h2]
    exact List.mem_map.mpr ⟨b, hb, rfl⟩

/-- Witness for C5: with `a` and `b` both in `R1`, updating `R1`'s url
sends the updated snapshot back to the updater `a` as well. -/
theorem c5_witness :
    { dest := "a", channel := Channel.syncVideo,
      payload := Payload.snapshot
        { roomId := "R1", videoUrl := "v2", lastKnownTime := 0, state := "paused" } } ∈
      (handleUpdateRoom (run
        [Action.connect "a", Action.createRoom "a" { roomId := "R1", videoUrl := "v1" },
          Action.connect "b", Action.joinRoom "b" { roomId := "R1" }])
        "a" { roomId := "R1", videoUrl := "v2" }).2 :=
  (c5_updateRoom_existing (run
      [Action.connect "a", Action.createRoom "a" { roomId := "R1", videoUrl := "v1" },
        Action.connect "b", Action.joinRoom "b" { roomId := "R1" }])
      "a" "R1" "v2"
      { roomId := "R1", videoUrl := "v1", lastKnownTime := 0, state := "paused" }
      (by decide)).2.2.2 "a" (by decide)

/-- C7: in any state reachable by a trace whose video events all carry
non-negative times, every stored room has a non-negative
`lastKnownTime` and a playback state that is `playing` or `paused`. -/
theorem c7_reachable_state_invariant (acts : List Action) (h : eventsNonneg acts) :
    ∀ p ∈ (run acts).roomStore,
      0 ≤ p.2.lastKnownTime ∧ (p.2.state = "playing" ∨ p.2.state = "paused") := by
  have hinit : storeInv initialState.roomStore := fun p hp =>
    absurd hp (List.not_mem_nil p)
  exact storeInv_runFrom acts initialState hinit h

/-- Witness for C7: the room reached by create-then-play holds time 5
and the playing state, which satisfy the invariant. -/
theorem c7_witness :
    0 ≤ (("R", { roomId := "R", videoUrl := "v", lastKnownTime := 5, state := "playing" }) :
        String × RoomState).2.lastKnownTime ∧
    ((("R", { roomId := "R", videoUrl := "v", lastKnownTime := 5, state := "playing" }) :
        String × RoomState).2.state = "playing" ∨
      (("R", { roomId := "R", videoUrl := "v", lastKnownTime := 5, state := "playing" }) :
        String × RoomState).2.state = "paused") :=
  c7_reachable_state_invariant
    [Action.connect "a", Action.createRoom "a" { roomId := "R", videoUrl := "v" },
      Action.videoEvent "a" { type := "play", currentTime := 5 }]
    (by decide)
    ("R", { roomId := "R", videoUrl := "v", lastKnownTime := 5, state := "playing" })
    (by decide)

/-- C9: a `videoEvent` from a member of a broadcast group whose room id
has no registry entry stores nothing for that id, yet the raw event is
still relayed to every other member of that group. -/
theorem c9_videoEvent_unknown_room (s : ServerState) (a : ConnId) (ev : VideoEventPayload)
    (r : String) (hmem : (a, r) ∈ s.members) (hra : r ≠ a)
    (habs : storeGet s.roomStore r = none) :
    storeGet (handleVideoEvent s a ev).1.roomStore r = none ∧
    (∀ b, b ∈ s.conns → b ≠ a → s.members.contains (b, r) = true →
      { dest := b, channel := Channel.videoEvent, payload := Payload.event ev } ∈
        (handleVideoEvent s a ev).2) := by
  constructor
  · have hst : (handleVideoEvent s a ev).1.roomStore =
        (senderRooms s a).foldl (fun st rid => updateRoomState st rid ev) s.roomStore :=
      videoEventLoop_store a ev s.conns s.members (senderRooms s a) s.roomStore []
    rw [hst]
    exact storeGet_foldlUpdate_none _ _ _ _ habs
  · intro b hb hne hm
    exact videoEventLoop_delivers a ev s.conns s.members (senderRooms s a) s.roomStore []
      r b (mem_senderRooms s a r hmem hra) hb hm hne

/-- Witness for C9: `a` and `b` joined the never-created room `R`; a play
event from `a` stores nothing for `R` but still reaches `b`. -/
theorem c9_witness :
    storeGet (handleVideoEvent (run
        [Action.connect "a", Action.joinRoom "a" { roomId := "R" },
          Action.connect "b", Action.joinRoom "b" { roomId := "R" }])
        "a" { type := "play", currentTime := 1 }).1.roomStore "R" = none ∧
    { dest := "b", channel := Channel.videoEvent,
      payload := Payload.event { type := "play", currentTime := 1 } } ∈
      (handleVideoEvent (run
        [Action.connect "a", Action.joinRoom "a" { roomId := "R" },
          Action.connect "b", Action.joinRoom "b" { roomId := "R" }])
        "a" { type := "play", currentTime := 1 }).2 := by
  have h := c9_videoEvent_unknown_room (run
      [Action.connect "a", Action.joinRoom "a" { roomId := "R" },
        Action.connect "b", Action.joinRoom "b" { roomId := "R" }])
      "a" { type := "play", currentTime := 1 } "R" (by decide) (by decide) (by decide)
  exact ⟨h.1, h.2 "b" (by decide) (by decide) (by decide)⟩

/-- Witness for C10: a `"stop"` event against a stored room changes
nothing. -/
theorem c10_witness :
    updateRoomState
      [("R1", { roomId := "R1", videoUrl := "v", lastKnownTime := 5, state := "playing" })]
      "R1" { type := "stop", currentTime := 9 } =
      [("R1", { roomId := "R1", videoUrl := "v", lastKnownTime := 5, state := "playing" })] :=
  c10_unknown_event_type_noop
    [("R1", { roomId := "R1", videoUrl := "v", lastKnownTime := 5, state := "playing" })]
    "R1" { type := "stop", currentTime := 9 } (by decide) (by decide) (by decide)

end Kesai
